import Mathlib

/-!
Verification development for the OfflinePhotoEditor repository.

The definitions below are shallow embeddings of the TypeScript sources:
  - src/services/imageProcessor.ts   (processing queue, operation pipeline)
  - src/utils/errorHandler.ts        (error classification)
  - src/store/slices/editorSlice.ts  (undo / redo reducers)
  - the recent-projects slice        (bounded recent-project list)

JavaScript numbers are modelled as rationals, strings as Lean strings,
promises that can reject as Except values, and external native libraries
(image editor, file system) as opaque functions packaged in an Env record.
-/

namespace OfflinePhotoEditor

/-! ### Processing queue (imageProcessor.ts, queueProcessing / processQueue) -/

/-- Priority tier of a processing job: the union type low | normal | high. -/
inductive Priority where
  | high
  | normal
  | low
deriving DecidableEq

/-- An ImageProcessingJob, restricted to the fields the queue logic reads.
The operations list and the callbacks are irrelevant to queue ordering. -/
structure Job where
  id : String
  imageUri : String
  priority : Priority
deriving DecidableEq

/-- The predicate j.priority === low used by the findIndex call in
queueProcessing. -/
def isLowJob (j : Job) : Bool := j.priority == Priority.low

/-- Normal-priority insertion branch of queueProcessing (lines 161-169):
findIndex of the first low-priority job; push at the back when it is -1,
otherwise splice the job in at that index. -/
def normalInsert (q : List Job) (j : Job) : List Job :=
  match q.findIdx? isLowJob with
  | none => q ++ [j]
  | some i => q.take i ++ j :: q.drop i

/-- Queue insertion logic of queueProcessing (lines 155-170): high priority
is unshifted at the front, low priority pushed at the back, and normal
priority inserted before the first low-priority job. -/
def queueInsert (q : List Job) (j : Job) : List Job :=
  match j.priority with
  | Priority.high => j :: q
  | Priority.low => q ++ [j]
  | Priority.normal => normalInsert q j

/-- Numeric rank of a priority tier; smaller rank is served earlier. -/
def rank : Priority → Nat
  | Priority.high => 0
  | Priority.normal => 1
  | Priority.low => 2

/-- Ordering between queued jobs: the first job is of a tier at least as
urgent as the second. -/
def tierOrd (a b : Job) : Prop := rank a.priority ≤ rank b.priority

/-- Queue states reachable from the empty queue by queueProcessing
insertions and processQueue front-removals (queue.shift()). -/
inductive QueueReach : List Job → Prop where
  | init : QueueReach []
  | enq (q : List Job) (j : Job) : QueueReach q → QueueReach (queueInsert q j)
  | deq (q : List Job) : QueueReach q → QueueReach q.tail

/-- Sample high-priority job. -/
def jobHigh : Job := { id := "jh", imageUri := "file://h.jpg", priority := Priority.high }

/-- Sample normal-priority job. -/
def jobNormal : Job := { id := "jn", imageUri := "file://n.jpg", priority := Priority.normal }

/-- Sample low-priority job. -/
def jobLow : Job := { id := "jl", imageUri := "file://l.jpg", priority := Priority.low }

/-! ### processQueue drain loop as a transition system (lines 180-203)

The JavaScript runtime interleaves the async bodies of queueProcessing and
processQueue at await points.  The state below records the queue array, the
isProcessing flag, the number of processQueue invocations that have not yet
executed their initial guard, and the number of invocations currently inside
the drain loop.  Invocations are counted rather than named because they are
indistinguishable. -/

/-- Shared state of the ImageProcessor singleton together with the
outstanding processQueue invocations. -/
structure PQState where
  queue : List Job
  isProcessing : Bool
  pendingCalls : Nat
  active : Nat
deriving DecidableEq

/-- Observable events of the queue subsystem. -/
inductive PQLabel where
  | enqueue (j : Job)
  | enterSkip
  | enterRun
  | takeJob (j : Job)
  | finish
deriving DecidableEq

/-- One interleaved step of the queue subsystem.
enqueue: queueProcessing inserts the job and, when isProcessing is false,
  calls processQueue (one more pending invocation).
enterSkip: a pending invocation executes the guard of processQueue and
  returns at once because the queue is empty or isProcessing is true.
enterRun: a pending invocation passes the guard, sets isProcessing and
  enters the drain loop.
takeJob: an invocation inside the drain loop shifts the front job off the
  queue and processes it (completion and failure callbacks are opaque).
finish: the drain loop sees an empty queue, clears isProcessing, returns. -/
inductive PQStep : PQState → PQLabel → PQState → Prop where
  | enqueue (s : PQState) (j : Job) :
      PQStep s (PQLabel.enqueue j)
        { queue := queueInsert s.queue j
          isProcessing := s.isProcessing
          pendingCalls := if s.isProcessing then s.pendingCalls else s.pendingCalls + 1
          active := s.active }
  | enterSkip (s : PQState) (h : 0 < s.pendingCalls)
      (hg : s.queue = [] ∨ s.isProcessing = true) :
      PQStep s PQLabel.enterSkip { s with pendingCalls := s.pendingCalls - 1 }
  | enterRun (s : PQState) (h : 0 < s.pendingCalls) (hq : s.queue ≠ [])
      (hp : s.isProcessing = false) :
      PQStep s PQLabel.enterRun
        { queue := s.queue
          isProcessing := true
          pendingCalls := s.pendingCalls - 1
          active := s.active + 1 }
  | takeJob (s : PQState) (j : Job) (rest : List Job) (ha : 0 < s.active)
      (hq : s.queue = j :: rest) :
      PQStep s (PQLabel.takeJob j) { s with queue := rest }
  | finish (s : PQState) (ha : 0 < s.active) (hq : s.queue = []) :
      PQStep s PQLabel.finish { s with isProcessing := false, active := s.active - 1 }

/-- Initial state: empty queue, idle flag, no invocations. -/
def pqInit : PQState := { queue := [], isProcessing := false, pendingCalls := 0, active := 0 }

/-- States reachable from the initial state of the queue subsystem. -/
inductive PQReach : PQState → Prop where
  | init : PQReach pqInit
  | step (s : PQState) (l : PQLabel) (t : PQState) : PQReach s → PQStep s l t → PQReach t

/-- The isProcessing flag is set exactly while one invocation is inside the
drain loop. -/
def pqInv (s : PQState) : Prop :=
  (s.isProcessing = true ∧ s.active = 1) ∨ (s.isProcessing = false ∧ s.active = 0)

/-- State after enqueueing a normal job from the initial state. -/
def pqS1 : PQState :=
  { queue := [jobNormal], isProcessing := false, pendingCalls := 1, active := 0 }

/-- State after the pending processQueue invocation passes its guard. -/
def pqS2 : PQState :=
  { queue := [jobNormal], isProcessing := true, pendingCalls := 0, active := 1 }

/-! ### Operation pipeline (imageProcessor.ts, processImage / applyOperation)

External collaborators (react-native Image.getSize, RNFS, the community
image editor) are opaque functions collected in an Env record.  JavaScript
numbers are rationals; promises that can reject are Except values; the
mocked delay() calls have no observable effect and are dropped. -/

/-- The ImageOperation tagged union (lines 17-41). -/
inductive FlipDirection where
  | horizontal
  | vertical
deriving DecidableEq

/-- One named image transform with its parameters. -/
inductive ImageOperation where
  | resize (width height : ℚ)
  | crop (x y width height : ℚ)
  | rotate (angle : ℚ)
  | flip (direction : FlipDirection)
  | filter (filterType : String) (intensity : ℚ)
  | brightness (value : ℚ)
  | contrast (value : ℚ)
  | saturation (value : ℚ)
  | blur (radius : ℚ)
  | text (content : String) (x y fontSize : ℚ) (color : String)
  | overlay (overlayUri : String) (x y opacity : ℚ)
deriving DecidableEq

/-- Image format union jpeg | png | webp. -/
inductive ImageFormat where
  | jpeg
  | png
  | webp
deriving DecidableEq

/-- The ImageInfo record (lines 55-62); orientation is never written. -/
structure ImageInfo where
  uri : String
  width : ℚ
  height : ℚ
  fileSize : ℚ
  format : ImageFormat
deriving DecidableEq

/-- The offset and size record handed to ImageEditor.cropImage, after the
Math.round calls. -/
structure CropData where
  offsetX : ℤ
  offsetY : ℤ
  width : ℤ
  height : ℤ
deriving DecidableEq

/-- The ProcessingResult record (lines 44-52).  processingTime is a
wall-clock duration (Date.now difference) and is abstracted as 0. -/
structure ProcessingResult where
  originalUri : String
  processedUri : String
  thumbnailUri : Option String
  fileSize : ℚ
  dimensions : ℚ × ℚ
  processingTime : ℚ
  operations : List ImageOperation
deriving DecidableEq

/-- Opaque external collaborators.  dimsRaw models Image.getSize (none means
the failure callback fires and the 1920x1080 fallback is used), statSize
models RNFS.stat, fileExists models RNFS.exists, download models
downloadRemoteImage, cropExternal models ImageEditor.cropImage, copyFile
models RNFS.copyFile. -/
structure Env where
  dimsRaw : String → Option (ℚ × ℚ)
  statSize : String → Except String ℚ
  fileExists : String → Bool
  download : String → Except String String
  cropExternal : String → CropData → Except String String
  copyFile : String → String → Except String Unit

/-- Remove the first occurrence of pat, as the JavaScript single-argument
String.replace with an empty replacement does. -/
def removeFirstOcc (pat : List Char) : List Char → List Char
  | [] => []
  | c :: rest =>
    if pat.isPrefixOf (c :: rest) then (c :: rest).drop pat.length
    else c :: removeFirstOcc pat rest

/-- uri.replace(pat, empty string): drop the first occurrence of pat. -/
def replaceFirst (s pat : String) : String := String.mk (removeFirstOcc pat.toList s.toList)

/-- Contiguous-substring test, as JavaScript String.includes. -/
def listIncludes (pat : List Char) : List Char → Bool
  | [] => pat.isEmpty
  | c :: rest => pat.isPrefixOf (c :: rest) || listIncludes pat rest

/-- s.includes(pat) for strings. -/
def strIncludes (s pat : String) : Bool := listIncludes pat.toList s.toList

/-- uri.replace of the regex matching the final dot-extension by
suffix followed by the extension: inserts suffix before the last extension
when one exists, otherwise returns the string unchanged. -/
def renameWithSuffix (uri suffix : String) : String :=
  let rev := uri.toList.reverse
  let extRev := rev.takeWhile (fun c => c != '.')
  if extRev.length = rev.length then uri
  else if extRev.isEmpty then uri
  else String.mk ((rev.drop (extRev.length + 1)).reverse) ++ suffix ++ "." ++
    String.mk extRev.reverse

/-- JavaScript Math.round: floor of the value plus one half. -/
def jsRound (q : ℚ) : ℤ := ⌊q + 1 / 2⌋

/-- uri.startsWith(pre), computed on the character lists. -/
def strStartsWith (s pre : String) : Bool := pre.toList.isPrefixOf s.toList

/-- uri.startsWith http prefix test used across the service. -/
def startsWithHttp (uri : String) : Bool :=
  strStartsWith uri "http://" || strStartsWith uri "https://"

/-- Remote or iOS Photos Library URI test from getImageInfo. -/
def isRemoteOrPhotos (uri : String) : Bool :=
  startsWithHttp uri || strStartsWith uri "ph://"

/-- getImageDimensions (lines 502-518): Image.getSize with a 1920x1080
fallback on failure, so it always resolves. -/
def getImageDimensions (env : Env) (uri : String) : ℚ × ℚ :=
  (env.dimsRaw uri).getD (1920, 1080)

/-- getImageFormat (lines 520-533): dispatch on the lower-cased final
dot-extension, defaulting to jpeg. -/
def getImageFormat (uri : String) : ImageFormat :=
  match (uri.splitOn ".").getLast? with
  | some ext =>
    match ext.toLower with
    | "jpg" => ImageFormat.jpeg
    | "jpeg" => ImageFormat.jpeg
    | "png" => ImageFormat.png
    | "webp" => ImageFormat.webp
    | _ => ImageFormat.jpeg
  | none => ImageFormat.jpeg

/-- getImageInfo (lines 472-500): dimensions from getImageDimensions, file
size from RNFS.stat for local files (w*h*3 estimate otherwise), failures
re-wrapped with a fixed prefix. -/
def getImageInfo (env : Env) (uri : String) : Except String ImageInfo :=
  let dims := getImageDimensions env uri
  let sizeE : Except String ℚ :=
    if !isRemoteOrPhotos uri then env.statSize (replaceFirst uri "file://")
    else Except.ok (dims.1 * dims.2 * 3)
  match sizeE with
  | Except.error m => Except.error ("Failed to get image info: " ++ m)
  | Except.ok size =>
    Except.ok { uri := uri, width := dims.1, height := dims.2, fileSize := size,
                format := getImageFormat uri }

/-- validateImageUri (lines 437-470): empty string rejected; http, https and
ph URIs validate through getImageDimensions, which never rejects; local
files must exist after stripping the file scheme prefix. -/
def validateImageUri (env : Env) (uri : String) : Except String Unit :=
  if uri = "" then Except.error "Invalid image URI"
  else if startsWithHttp uri then Except.ok ()
  else if strStartsWith uri "ph://" then Except.ok ()
  else if env.fileExists (replaceFirst uri "file://") then Except.ok ()
  else Except.error "Image file does not exist"

/-- Clamped crop x coordinate (line 294). -/
def safeX (imageWidth x : ℚ) : ℚ := max 0 (min x (imageWidth - 1))

/-- Clamped crop y coordinate (line 295). -/
def safeY (imageHeight y : ℚ) : ℚ := max 0 (min y (imageHeight - 1))

/-- Clamped crop width (line 296). -/
def safeWidth (imageWidth x width : ℚ) : ℚ :=
  max 1 (min width (imageWidth - safeX imageWidth x))

/-- Clamped crop height (lines 297-300). -/
def safeHeight (imageHeight y height : ℚ) : ℚ :=
  max 1 (min height (imageHeight - safeY imageHeight y))

/-- cropImage (lines 273-315): download remote inputs, clamp the requested
rectangle to the image bounds, round, and defer to the external editor;
failures re-wrapped with a fixed prefix. -/
def cropImage (env : Env) (uri : String) (x y width height : ℚ) : Except String String :=
  let inner : Except String String := do
    let localUri ← if startsWithHttp uri then env.download uri else Except.ok uri
    let info ← getImageInfo env localUri
    env.cropExternal localUri
      { offsetX := jsRound (safeX info.width x)
        offsetY := jsRound (safeY info.height y)
        width := jsRound (safeWidth info.width x width)
        height := jsRound (safeHeight info.height y height) }
  match inner with
  | Except.ok r => Except.ok r
  | Except.error m => Except.error ("Failed to crop image: " ++ m)

/-- The template string inserted by rotateImage for the three simulated
angles. -/
def rotationSuffix (angle : ℚ) : String :=
  if angle = 90 then "_rotated_90"
  else if angle = 180 then "_rotated_180"
  else "_rotated_270"

/-- rotateImage (lines 317-353): identity at angle 0 and at angles other
than 90, 180, 270; at those three angles the file is copied to a renamed
URI; failures re-wrapped with a fixed prefix. -/
def rotateImage (env : Env) (uri : String) (angle : ℚ) : Except String String :=
  let inner : Except String String :=
    if angle = 0 then Except.ok uri
    else
      match getImageInfo env uri with
      | Except.error m => Except.error m
      | Except.ok _ =>
        if angle = 90 ∨ angle = 180 ∨ angle = 270 then
          let rotatedUri := renameWithSuffix uri (rotationSuffix angle)
          match env.copyFile uri rotatedUri with
          | Except.error m => Except.error m
          | Except.ok _ => Except.ok rotatedUri
        else Except.ok uri
  match inner with
  | Except.ok r => Except.ok r
  | Except.error m => Except.error ("Failed to rotate image: " ++ m)

/-- The direction component of the flipped filename. -/
def flipDirectionName : FlipDirection → String
  | FlipDirection.horizontal => "horizontal"
  | FlipDirection.vertical => "vertical"

/-- flipImage (lines 355-375): copy the file to a renamed URI; failures
re-wrapped with a fixed prefix. -/
def flipImage (env : Env) (uri : String) (direction : FlipDirection) : Except String String :=
  let flippedUri := renameWithSuffix uri ("_flipped_" ++ flipDirectionName direction)
  match env.copyFile uri flippedUri with
  | Except.ok _ => Except.ok flippedUri
  | Except.error m => Except.error ("Failed to flip image: " ++ m)

/-- resizeImage (lines 262-271): mocked, returns the same URI. -/
def resizeImage (uri : String) (_width _height : ℚ) : Except String String := Except.ok uri

/-- applyFilter (lines 377-385): mocked, returns the same URI. -/
def applyFilter (uri : String) (_filterType : String) (_intensity : ℚ) :
    Except String String := Except.ok uri

/-- adjustBrightness (lines 387-391): mocked, returns the same URI. -/
def adjustBrightness (uri : String) (_value : ℚ) : Except String String := Except.ok uri

/-- adjustContrast (lines 393-397): mocked, returns the same URI. -/
def adjustContrast (uri : String) (_value : ℚ) : Except String String := Except.ok uri

/-- adjustSaturation (lines 399-403): mocked, returns the same URI. -/
def adjustSaturation (uri : String) (_value : ℚ) : Except String String := Except.ok uri

/-- applyBlur (lines 405-409): mocked, returns the same URI. -/
def applyBlur (uri : String) (_radius : ℚ) : Except String String := Except.ok uri

/-- addText (lines 411-422): mocked, returns the same URI. -/
def addText (uri : String) (_content : String) (_x _y _fontSize : ℚ) (_color : String) :
    Except String String := Except.ok uri

/-- addOverlay (lines 424-434): mocked, returns the same URI. -/
def addOverlay (uri : String) (_overlayUri : String) (_x _y _opacity : ℚ) :
    Except String String := Except.ok uri

/-- applyOperation (lines 206-259): dispatch on the operation tag. -/
def applyOperation (env : Env) (imageUri : String) (operation : ImageOperation) :
    Except String String :=
  match operation with
  | ImageOperation.resize w h => resizeImage imageUri w h
  | ImageOperation.crop x y w h => cropImage env imageUri x y w h
  | ImageOperation.rotate angle => rotateImage env imageUri angle
  | ImageOperation.flip d => flipImage env imageUri d
  | ImageOperation.filter ft i => applyFilter imageUri ft i
  | ImageOperation.brightness v => adjustBrightness imageUri v
  | ImageOperation.contrast v => adjustContrast imageUri v
  | ImageOperation.saturation v => adjustSaturation imageUri v
  | ImageOperation.blur r => applyBlur imageUri r
  | ImageOperation.text t x y fs c => addText imageUri t x y fs c
  | ImageOperation.overlay o x y op => addOverlay imageUri o x y op

/-- The eight operation kinds whose implementations are pure stubs (mocked
delay then return the input URI); crop, rotate and flip are the others. -/
def isStubOperation : ImageOperation → Bool
  | ImageOperation.resize _ _ => true
  | ImageOperation.filter _ _ => true
  | ImageOperation.brightness _ => true
  | ImageOperation.contrast _ => true
  | ImageOperation.saturation _ => true
  | ImageOperation.blur _ => true
  | ImageOperation.text _ _ _ _ _ => true
  | ImageOperation.overlay _ _ _ _ => true
  | ImageOperation.crop _ _ _ _ => false
  | ImageOperation.rotate _ => false
  | ImageOperation.flip _ => false

/-- The URI threading of the processImage for loop (lines 103-110): apply
each operation in order to the running URI, stopping at the first failure. -/
def runOperations (env : Env) : String → List ImageOperation → Except String String
  | u, [] => Except.ok u
  | u, op :: rest =>
    match applyOperation env u op with
    | Except.ok u2 => runOperations env u2 rest
    | Except.error m => Except.error m

/-- Observable events of the processImage for loop: an onProgress callback
invocation with its argument, or the completed application of the operation
at a given zero-based index. -/
inductive PEvent where
  | progress (value : ℚ)
  | applyOp (index : Nat)
deriving DecidableEq

/-- The progress value computed at loop index i (line 106):
((i + 1) / operations.length) * 100. -/
def progVal (i n : Nat) : ℚ := ((i : ℚ) + 1) / (n : ℚ) * 100

/-- Event trace of the processImage for loop starting at index i with n
total operations: each iteration first invokes onProgress, then applies the
operation; a failing operation aborts the loop after its progress call. -/
def opsTrace (env : Env) (n : Nat) : String → Nat → List ImageOperation → List PEvent
  | _, _, [] => []
  | u, i, op :: rest =>
    PEvent.progress (progVal i n) ::
      match applyOperation env u op with
      | Except.ok u2 => PEvent.applyOp i :: opsTrace env n u2 (i + 1) rest
      | Except.error _ => []

/-- Full event trace of the processImage for loop over an operation list. -/
def pipelineTrace (env : Env) (uri : String) (ops : List ImageOperation) : List PEvent :=
  opsTrace env ops.length uri 0 ops

/-- The arguments of the onProgress invocations of a trace, in order. -/
def progressEvents (t : List PEvent) : List ℚ :=
  t.filterMap fun e =>
    match e with
    | PEvent.progress v => some v
    | PEvent.applyOp _ => none

/-- Claim C4 as stated, at one input: the callback fires ops.length times,
and an invocation preceded by j earlier invocations reports the fraction
(j + 1) / ops.length and happens only after operation j has been applied. -/
def C4Claim (env : Env) (uri : String) (ops : List ImageOperation) : Prop :=
  (progressEvents (pipelineTrace env uri ops)).length = ops.length ∧
  (∀ (k j : Nat) (v : ℚ),
    (progressEvents ((pipelineTrace env uri ops).take k)).length = j →
    (pipelineTrace env uri ops)[k]? = some (PEvent.progress v) →
    v = ((j : ℚ) + 1) / (ops.length : ℚ) ∧
      PEvent.applyOp j ∈ (pipelineTrace env uri ops).take k)

/-- generateOutput (lines 535-544): mocked, returns the same URI. -/
def generateOutput (uri : String) (_quality : ℚ) (_format : ImageFormat) :
    Except String String := Except.ok uri

/-- generateThumbnail (lines 546-550): mocked, returns the same URI. -/
def generateThumbnail (uri : String) : Except String String := Except.ok uri

/-- The options record of processImage, without the callbacks. -/
structure ProcessOptions where
  quality : Option ℚ
  format : Option ImageFormat
  generateThumbnail : Bool
deriving DecidableEq

/-- options.quality || 90: JavaScript treats 0 as falsy. -/
def jsQuality (q : Option ℚ) : ℚ :=
  match q with
  | some v => if v = 0 then 90 else v
  | none => 90

/-- options.format || jpeg. -/
def jsFormat (f : Option ImageFormat) : ImageFormat := f.getD ImageFormat.jpeg

/-- The optional thumbnail step of processImage (lines 119-122): generate a
thumbnail only when requested. -/
def thumbnailStep (generate : Bool) (uri : String) : Except String (Option String) :=
  if generate then
    match generateThumbnail uri with
    | Except.ok t => Except.ok (some t)
    | Except.error m => Except.error m
  else Except.ok (none : Option String)

/-- Body of the try block of processImage (lines 95-137): validate, read
image info, fold the operations over the URI, generate output and optional
thumbnail, read the final info, and assemble the result record. -/
def processImageInner (env : Env) (imageUri : String) (operations : List ImageOperation)
    (options : ProcessOptions) : Except String ProcessingResult := do
  let _ ← validateImageUri env imageUri
  let _ ← getImageInfo env imageUri
  let processedUri ← runOperations env imageUri operations
  let finalUri ← generateOutput processedUri (jsQuality options.quality)
    (jsFormat options.format)
  let thumbnailUri ← thumbnailStep options.generateThumbnail finalUri
  let finalInfo ← getImageInfo env finalUri
  pure
    { originalUri := imageUri
      processedUri := finalUri
      thumbnailUri := thumbnailUri
      fileSize := finalInfo.fileSize
      dimensions := (finalInfo.width, finalInfo.height)
      processingTime := 0
      operations := operations }

/-- processImage (lines 82-142): the try body, with any failure re-thrown
under the fixed prefix (lines 138-141). -/
def processImage (env : Env) (imageUri : String) (operations : List ImageOperation)
    (options : ProcessOptions) : Except String ProcessingResult :=
  match processImageInner env imageUri operations options with
  | Except.ok r => Except.ok r
  | Except.error m => Except.error ("Image processing failed: " ++ m)

/-- The value processImage returns on the sample input below. -/
def sampleResult : ProcessingResult :=
  { originalUri := "file://a.jpg", processedUri := "file://a.jpg", thumbnailUri := none,
    fileSize := 1000, dimensions := (1920, 1080), processingTime := 0,
    operations := [ImageOperation.brightness 1, ImageOperation.blur 2] }

/-- The event list the loop produces when no operation fails, starting at
index i out of n: for each of m remaining operations, one progress
invocation immediately followed by the application of that operation. -/
def canonicalTrace (i n : Nat) : Nat → List PEvent
  | 0 => []
  | Nat.succ m =>
    PEvent.progress (progVal i n) :: PEvent.applyOp i :: canonicalTrace (i + 1) n m

/-- A benign environment for concrete evaluations: dimensions fall back,
stat succeeds, files exist, external calls succeed. -/
def defaultEnv : Env :=
  { dimsRaw := fun _ => none
    statSize := fun _ => Except.ok 1000
    fileExists := fun _ => true
    download := fun u => Except.ok u
    cropExternal := fun u _ => Except.ok (u ++ "_cropped")
    copyFile := fun _ _ => Except.ok () }

/-- A two-element list of stub operations. -/
def opsTwoStubs : List ImageOperation := [ImageOperation.brightness 1, ImageOperation.blur 2]

/-- Options record with every optional field absent. -/
def defaultOptions : ProcessOptions :=
  { quality := none, format := none, generateThumbnail := false }

/-! ### Error classification (errorHandler.ts, classifyError) -/

/-- The ErrorType union of errorSlice.ts (11 categories). -/
inductive ErrorType where
  | storage_full
  | large_image
  | export_failed
  | import_failed
  | permission_denied
  | network_error
  | iap_failed
  | file_not_found
  | unsupported_format
  | memory_error
  | unknown
deriving DecidableEq

/-- The shape classifyError reads from its untyped argument: an optional
code property and an optional message property.  Inputs that are not
objects carry neither. -/
structure JSError where
  code : Option String
  message : Option String
deriving DecidableEq

/-- error?.message?.includes(pat): false when message is absent. -/
def msgHas (e : JSError) (pat : String) : Bool :=
  match e.message with
  | some m => strIncludes m pat
  | none => false

/-- First pattern of classifyError (line 41). -/
def storagePattern (e : JSError) : Bool :=
  e.code == some "storage-full" || msgHas e "storage"

/-- Second pattern of classifyError (line 45). -/
def largeImagePattern (e : JSError) : Bool :=
  e.code == some "file-too-large" || msgHas e "large"

/-- Third pattern of classifyError (line 49). -/
def exportFailedPattern (e : JSError) : Bool :=
  e.code == some "export-failed" || msgHas e "export"

/-- Fourth pattern of classifyError (line 53). -/
def permissionPattern (e : JSError) : Bool :=
  e.code == some "permission-denied" || msgHas e "permission"

/-- Fifth pattern of classifyError (line 57). -/
def networkPattern (e : JSError) : Bool :=
  e.code == some "network-error" || msgHas e "network"

/-- Sixth pattern of classifyError (line 61). -/
def iapPattern (e : JSError) : Bool :=
  e.code == some "iap-failed" || msgHas e "purchase"

/-- classifyError (lines 40-66): the six patterns are tested in order and
the first match decides; anything else is unknown. -/
def classifyError (e : JSError) : ErrorType :=
  if storagePattern e then ErrorType.storage_full
  else if largeImagePattern e then ErrorType.large_image
  else if exportFailedPattern e then ErrorType.export_failed
  else if permissionPattern e then ErrorType.permission_denied
  else if networkPattern e then ErrorType.network_error
  else if iapPattern e then ErrorType.iap_failed
  else ErrorType.unknown

/-- An error value matching both the storage pattern (through its message)
and the large-image pattern (through its code). -/
def errOverlap : JSError :=
  { code := some "file-too-large", message := some "storage is involved" }

/-- An error value matching only the network pattern. -/
def errNetwork : JSError := { code := none, message := some "network down" }

/-! ### Editor slice (editorSlice.ts, undo / redo) -/

/-- A text overlay element (lines 30-40). -/
structure TextElement where
  id : String
  text : String
  x : ℚ
  y : ℚ
  fontSize : ℚ
  fontFamily : String
  color : String
  rotation : ℚ
  opacity : ℚ
deriving DecidableEq

/-- An applied filter (lines 42-47); the untyped parameters record is
modelled as a list of key-value tokens. -/
structure AppliedFilter where
  id : String
  name : String
  intensity : ℚ
  parameters : List (String × String)
deriving DecidableEq

/-- Payload of the untyped data slot of an ImageEditAction.  The slice
stores a TextElement there for ADD_TEXT actions and an AppliedFilter for
ADD_FILTER actions; both variants expose the id field that
applyUndoAction reads. -/
inductive ActionData where
  | textElem (element : TextElement)
  | filterElem (f : AppliedFilter)
deriving DecidableEq

/-- The id property of the data payload (action.data.id). -/
def ActionData.dataId : ActionData → String
  | ActionData.textElem t => t.id
  | ActionData.filterElem f => f.id

/-- An entry of the undo and redo stacks (lines 23-28). -/
structure ImageEditAction where
  id : String
  type : String
  data : ActionData
  timestamp : ℚ
deriving DecidableEq

/-- The currentImage record of the editor state. -/
structure CurrentImage where
  uri : String
  width : ℚ
  height : ℚ
  originalUri : String
deriving DecidableEq

/-- The EditorState record (lines 3-21); the untyped toolSettings record is
modelled as a list of key-value tokens. -/
structure EditorState where
  currentImage : Option CurrentImage
  currentTool : Option String
  toolSettings : List (String × String)
  undoStack : List ImageEditAction
  redoStack : List ImageEditAction
  isProcessing : Bool
  zoom : ℚ
  pan : ℚ × ℚ
  canvasSize : ℚ × ℚ
  selectedTextElement : Option String
  textElements : List TextElement
  filters : List AppliedFilter
deriving DecidableEq

/-- applyUndoAction (lines 168-181): ADD_TEXT removes every text element
whose id equals the id of the action payload, ADD_FILTER does the same on
filters, UPDATE_TEXT and every other type change nothing. -/
def applyUndoAction (state : EditorState) (action : ImageEditAction) : EditorState :=
  if action.type = "ADD_TEXT" then
    { state with
      textElements := state.textElements.filter (fun el => el.id != action.data.dataId) }
  else if action.type = "UPDATE_TEXT" then state
  else if action.type = "ADD_FILTER" then
    { state with filters := state.filters.filter (fun f => f.id != action.data.dataId) }
  else state

/-- applyRedoAction (lines 183-193): ADD_TEXT pushes the payload back onto
textElements and ADD_FILTER onto filters; a payload of the other variant is
left alone in this typed embedding (the slice only creates matching
payloads). -/
def applyRedoAction (state : EditorState) (action : ImageEditAction) : EditorState :=
  if action.type = "ADD_TEXT" then
    match action.data with
    | ActionData.textElem t => { state with textElements := state.textElements ++ [t] }
    | ActionData.filterElem _ => state
  else if action.type = "ADD_FILTER" then
    match action.data with
    | ActionData.filterElem f => { state with filters := state.filters ++ [f] }
    | ActionData.textElem _ => state
  else state

/-- The undo reducer (lines 94-101): with a non-empty undo stack, pop its
top (the last array element), push it on the redo stack and apply the undo
logic; otherwise do nothing. -/
def undo (state : EditorState) : EditorState :=
  match state.undoStack.getLast? with
  | none => state
  | some action =>
    applyUndoAction
      { state with
        undoStack := state.undoStack.dropLast
        redoStack := state.redoStack ++ [action] } action

/-- The redo reducer (lines 102-109): symmetric to undo. -/
def redo (state : EditorState) : EditorState :=
  match state.redoStack.getLast? with
  | none => state
  | some action =>
    applyRedoAction
      { state with
        redoStack := state.redoStack.dropLast
        undoStack := state.undoStack ++ [action] } action

/-- A text element used in concrete undo and redo evaluations. -/
def sampleTextElement : TextElement :=
  { id := "t1", text := "hello", x := 0, y := 0, fontSize := 12,
    fontFamily := "system", color := "white", rotation := 0, opacity := 1 }

/-- An ADD_TEXT action carrying sampleTextElement. -/
def sampleAddTextAction : ImageEditAction :=
  { id := "a1", type := "ADD_TEXT", data := ActionData.textElem sampleTextElement,
    timestamp := 0 }

/-- An editor state whose textElements list contains the same element id
twice, with the ADD_TEXT action for it on top of the undo stack. -/
def dupIdState : EditorState :=
  { currentImage := none, currentTool := none, toolSettings := [],
    undoStack := [sampleAddTextAction], redoStack := [], isProcessing := false,
    zoom := 1, pan := (0, 0), canvasSize := (0, 0), selectedTextElement := none,
    textElements := [sampleTextElement, sampleTextElement], filters := [] }

/-- The same state with the element present once, as the slice itself
produces it. -/
def singleIdState : EditorState :=
  { currentImage := none, currentTool := none, toolSettings := [],
    undoStack := [sampleAddTextAction], redoStack := [], isProcessing := false,
    zoom := 1, pan := (0, 0), canvasSize := (0, 0), selectedTextElement := none,
    textElements := [sampleTextElement], filters := [] }

/-! ### Recent-projects slice (bounded recent-project list) -/

/-- One edit-history entry (the untyped tool data is an opaque token). -/
structure EditHistory where
  id : String
  tool : String
  timestamp : ℚ
  data : String
deriving DecidableEq

/-- The RecentProject record. -/
structure RecentProject where
  id : String
  name : String
  thumbnail : String
  originalUri : String
  createdAt : ℚ
  lastModified : ℚ
  edits : List EditHistory
  isSaved : Bool
deriving DecidableEq

/-- Partial RecentProject, the updates argument of updateProject. -/
structure ProjectUpdates where
  id : Option String
  name : Option String
  thumbnail : Option String
  originalUri : Option String
  createdAt : Option ℚ
  lastModified : Option ℚ
  edits : Option (List EditHistory)
  isSaved : Option Bool
deriving DecidableEq

/-- Object.assign(project, updates): present fields overwrite. -/
def applyProjectUpdates (p : RecentProject) (u : ProjectUpdates) : RecentProject :=
  { id := u.id.getD p.id
    name := u.name.getD p.name
    thumbnail := u.thumbnail.getD p.thumbnail
    originalUri := u.originalUri.getD p.originalUri
    createdAt := u.createdAt.getD p.createdAt
    lastModified := u.lastModified.getD p.lastModified
    edits := u.edits.getD p.edits
    isSaved := u.isSaved.getD p.isSaved }

/-- Mutate the first list element satisfying the predicate, as the
state.find followed by in-place mutation does in the reducers. -/
def updateFirst {α : Type} (pred : α → Bool) (f : α → α) : List α → List α
  | [] => []
  | x :: xs => if pred x then f x :: xs else x :: updateFirst pred f xs

/-- addProject: unshift the new project, then truncate to the first 10
entries when the list exceeds 10. -/
def addProject (s : List RecentProject) (p : RecentProject) : List RecentProject :=
  let s2 := p :: s
  if s2.length > 10 then s2.take 10 else s2

/-- updateProject: assign the updates onto the first project with the given
id and refresh its lastModified stamp. -/
def updateProject (s : List RecentProject) (id : String) (updates : ProjectUpdates)
    (now : ℚ) : List RecentProject :=
  updateFirst (fun p => p.id == id)
    (fun p => { applyProjectUpdates p updates with lastModified := now }) s

/-- removeProject: keep the projects with a different id. -/
def removeProject (s : List RecentProject) (id : String) : List RecentProject :=
  s.filter (fun p => p.id != id)

/-- addEditToProject: append the edit to the first matching project, stamp
it and mark it unsaved. -/
def addEditToProject (s : List RecentProject) (projectId : String) (edit : EditHistory)
    (now : ℚ) : List RecentProject :=
  updateFirst (fun p => p.id == projectId)
    (fun p => { p with edits := p.edits ++ [edit], lastModified := now, isSaved := false }) s

/-- markProjectAsSaved: set the saved flag on the first matching project. -/
def markProjectAsSaved (s : List RecentProject) (id : String) (now : ℚ) :
    List RecentProject :=
  updateFirst (fun p => p.id == id)
    (fun p => { p with isSaved := true, lastModified := now }) s

/-- clearAllProjects: the empty list. -/
def clearAllProjects (_s : List RecentProject) : List RecentProject := []

/-- updateProjectThumbnail: replace the thumbnail of the first matching
project. -/
def updateProjectThumbnail (s : List RecentProject) (id : String) (thumbnail : String)
    (now : ℚ) : List RecentProject :=
  updateFirst (fun p => p.id == id)
    (fun p => { p with thumbnail := thumbnail, lastModified := now }) s

/-- The actions of the recent-projects slice.  Date.now() is passed in as
the now argument where a reducer stamps lastModified. -/
inductive RPAction where
  | addProject (p : RecentProject)
  | updateProject (id : String) (updates : ProjectUpdates) (now : ℚ)
  | removeProject (id : String)
  | addEditToProject (projectId : String) (edit : EditHistory) (now : ℚ)
  | markProjectAsSaved (id : String) (now : ℚ)
  | clearAllProjects
  | updateProjectThumbnail (id : String) (thumbnail : String) (now : ℚ)

/-- Dispatch of the recent-projects reducers. -/
def rpReduce (s : List RecentProject) : RPAction → List RecentProject
  | RPAction.addProject p => addProject s p
  | RPAction.updateProject id u now => updateProject s id u now
  | RPAction.removeProject id => removeProject s id
  | RPAction.addEditToProject pid e now => addEditToProject s pid e now
  | RPAction.markProjectAsSaved id now => markProjectAsSaved s id now
  | RPAction.clearAllProjects => clearAllProjects s
  | RPAction.updateProjectThumbnail id t now => updateProjectThumbnail s id t now

/-- States reachable from the initial empty list by slice actions. -/
inductive RPReach : List RecentProject → Prop where
  | init : RPReach []
  | step (s : List RecentProject) (a : RPAction) : RPReach s → RPReach (rpReduce s a)

/-- A sample project for concrete evaluations. -/
def sampleProject : RecentProject :=
  { id := "p1", name := "First", thumbnail := "tn", originalUri := "file://p1.jpg",
    createdAt := 0, lastModified := 0, edits := [], isSaved := true }

/-! ## Theorems -/

theorem rank_le_two (p : Priority) : rank p ≤ 2 := by
  cases p <;> simp [rank]

theorem rank_le_one_of_ne_low (p : Priority) (h : p ≠ Priority.low) : rank p ≤ 1 := by
  cases p <;> simp_all [rank]

theorem low_of_two_le_rank (p : Priority) (h : 2 ≤ rank p) : p = Priority.low := by
  cases p <;> simp_all [rank]

theorem isLowJob_false_iff (j : Job) : isLowJob j = false ↔ j.priority ≠ Priority.low := by
  cases hj : j.priority <;> simp [isLowJob, hj]

theorem normalInsert_eq_takeWhile (q : List Job) (j : Job) :
    normalInsert q j =
      q.takeWhile (fun x => !isLowJob x) ++ j :: q.dropWhile (fun x => !isLowJob x) := by
  induction q with
  | nil => simp [normalInsert]
  | cons x xs ih =>
    by_cases hx : isLowJob x
    · simp [normalInsert, List.findIdx?_cons, hx, List.takeWhile_cons, List.dropWhile_cons]
    · have hx0 : isLowJob x = false := by simpa using hx
      cases hfi : xs.findIdx? isLowJob with
      | none =>
        have hall : ∀ y ∈ xs, isLowJob y = false := by
          intro y hy
          simpa using (List.findIdx?_eq_none_iff.mp hfi) y hy
        have htw : xs.takeWhile (fun x => !isLowJob x) = xs :=
          List.takeWhile_eq_self_iff.mpr (by intro y hy; simp [hall y hy])
        have hdw : xs.dropWhile (fun x => !isLowJob x) = [] :=
          List.dropWhile_eq_nil_iff.mpr (by intro y hy; simp [hall y hy])
        simp [normalInsert, List.findIdx?_cons, hx0, hfi, List.takeWhile_cons,
          List.dropWhile_cons, htw, hdw]
      | some i =>
        have hxs : xs.take i ++ j :: xs.drop i =
            xs.takeWhile (fun x => !isLowJob x) ++ j :: xs.dropWhile (fun x => !isLowJob x) := by
          have hthis := ih
          rw [normalInsert, hfi] at hthis
          exact hthis
        simp [normalInsert, List.findIdx?_cons, hx0, hfi, List.takeWhile_cons,
          List.dropWhile_cons, List.take_succ_cons, List.drop_succ_cons, hxs]

theorem dropWhile_head_false {α : Type} (p : α → Bool) (l : List α) (y : α) (ys : List α)
    (h : l.dropWhile p = y :: ys) : p y = false := by
  induction l with
  | nil => simp at h
  | cons a t ih =>
    rw [List.dropWhile_cons] at h
    by_cases ha : p a
    · simp [ha] at h
      exact ih h
    · simp [ha] at h
      simp [← h.1, Bool.eq_false_iff, ha]

theorem dropWhile_low_all (q : List Job) (hpair : q.Pairwise tierOrd) :
    ∀ y ∈ q.dropWhile (fun x => !isLowJob x), y.priority = Priority.low := by
  have hb : (q.dropWhile (fun x => !isLowJob x)).Pairwise tierOrd :=
    List.Pairwise.sublist (List.dropWhile_sublist _) hpair
  cases hb0 : q.dropWhile (fun x => !isLowJob x) with
  | nil => intro y hy; simp at hy
  | cons z zs =>
    rw [hb0] at hb
    have hz : (!isLowJob z) = false := dropWhile_head_false _ q z zs hb0
    have hzlow : z.priority = Priority.low := by
      have hzt : isLowJob z = true := by simpa using hz
      simpa [isLowJob] using hzt
    intro y hy
    rcases List.mem_cons.mp hy with hy1 | hy2
    · subst hy1; exact hzlow
    · have hzy : tierOrd z y := (List.pairwise_cons.mp hb).1 y hy2
      exact low_of_two_le_rank _ (by simpa [tierOrd, hzlow, rank] using hzy)

theorem normalInsert_pairwise (q : List Job) (j : Job) (hp : j.priority = Priority.normal)
    (h : q.Pairwise tierOrd) : (normalInsert q j).Pairwise tierOrd := by
  rw [normalInsert_eq_takeWhile]
  have hq : q.takeWhile (fun x => !isLowJob x) ++ q.dropWhile (fun x => !isLowJob x) = q :=
    List.takeWhile_append_dropWhile _ _
  have hpair : (q.takeWhile (fun x => !isLowJob x) ++
      q.dropWhile (fun x => !isLowJob x)).Pairwise tierOrd := by rw [hq]; exact h
  obtain ⟨ha, hb, hab⟩ := List.pairwise_append.mp hpair
  have hlow := dropWhile_low_all q h
  apply List.pairwise_append.mpr
  refine ⟨ha, ?_, ?_⟩
  · apply List.pairwise_cons.mpr
    refine ⟨?_, hb⟩
    intro y hy
    simp [tierOrd, hp, rank, hlow y hy]
  · intro x hx y hy
    have hxne : x.priority ≠ Priority.low := by
      have hxf : isLowJob x = false := by
        have hxlow := List.mem_takeWhile_imp hx
        simpa using hxlow
      exact (isLowJob_false_iff x).mp hxf
    have hx1 : rank x.priority ≤ 1 := rank_le_one_of_ne_low _ hxne
    rcases List.mem_cons.mp hy with hy1 | hy2
    · subst hy1
      simp only [tierOrd, hp, rank]
      exact hx1
    · exact hab x hx y hy2

theorem queueInsert_pairwise (q : List Job) (j : Job) (h : q.Pairwise tierOrd) :
    (queueInsert q j).Pairwise tierOrd := by
  cases hp : j.priority with
  | high =>
    simp only [queueInsert, hp]
    exact List.Pairwise.cons (fun x _ => by simp [tierOrd, hp, rank]) h
  | low =>
    simp only [queueInsert, hp]
    refine List.pairwise_append.mpr ⟨h, by simp, ?_⟩
    intro x hx y hy
    simp only [List.mem_singleton] at hy
    subst hy
    simp only [tierOrd, hp, rank]
    exact rank_le_two _
  | normal =>
    simp only [queueInsert, hp]
    exact normalInsert_pairwise q j hp h

theorem queueReach_pairwise (q : List Job) (h : QueueReach q) : q.Pairwise tierOrd := by
  induction h with
  | init => simp
  | enq q j hq ih => exact queueInsert_pairwise q j ih
  | deq q hq ih =>
    cases q with
    | nil => simp
    | cons a t => exact (List.pairwise_cons.mp ih).2

theorem findIdx?_first_low (a : List Job) (bl : Job) (bs : List Job)
    (ha : ∀ x ∈ a, x.priority ≠ Priority.low) (hbl : bl.priority = Priority.low) :
    (a ++ bl :: bs).findIdx? isLowJob = some a.length := by
  induction a with
  | nil => simp [List.findIdx?_cons, isLowJob, hbl]
  | cons x xs ih =>
    have hx : isLowJob x = false :=
      (isLowJob_false_iff x).mpr (ha x (List.mem_cons_self x xs))
    have ihx := ih (fun y hy => ha y (List.mem_cons_of_mem x hy))
    simp [List.findIdx?_cons, hx, ihx]

/-- C1: queueProcessing inserts a high-priority job at the front of the
queue, appends a low-priority job at the back, and inserts a normal-priority
job immediately before the first low-priority job, or at the back when no
low-priority job is queued. -/
theorem C1_queueInsert_spec :
    (∀ (q : List Job) (j : Job), j.priority = Priority.high → queueInsert q j = j :: q) ∧
    (∀ (q : List Job) (j : Job), j.priority = Priority.low → queueInsert q j = q ++ [j]) ∧
    (∀ (q : List Job) (j : Job), j.priority = Priority.normal →
      (∀ x ∈ q, x.priority ≠ Priority.low) → queueInsert q j = q ++ [j]) ∧
    (∀ (a : List Job) (bl : Job) (bs : List Job) (j : Job), j.priority = Priority.normal →
      (∀ x ∈ a, x.priority ≠ Priority.low) → bl.priority = Priority.low →
      queueInsert (a ++ bl :: bs) j = a ++ j :: bl :: bs) := by
  refine ⟨?_, ?_, ?_, ?_⟩
  · intro q j hp; simp [queueInsert, hp]
  · intro q j hp; simp [queueInsert, hp]
  · intro q j hp hq
    have hnone : q.findIdx? isLowJob = none := by
      apply List.findIdx?_eq_none_iff.mpr
      intro x hx
      exact (isLowJob_false_iff x).mpr (hq x hx)
    simp [queueInsert, hp, normalInsert, hnone]
  · intro a bl bs j hp ha hbl
    have hidx := findIdx?_first_low a bl bs ha hbl
    simp only [queueInsert, hp, normalInsert, hidx]
    rw [List.take_left, List.drop_left]

/-- Witness for C1: inserting a normal job into the queue [high, low] puts
it immediately before the low-priority job. -/
theorem C1_queueInsert_spec_witness :
    queueInsert [jobHigh, jobLow] jobNormal = [jobHigh, jobNormal, jobLow] := by
  have h := C1_queueInsert_spec.2.2.2 [jobHigh] jobLow [] jobNormal rfl
    (by decide) rfl
  simpa using h

/-- C2: every queue state reachable by queueProcessing insertions and
processQueue front-removals is sorted by priority tier (pairwise
non-decreasing rank, so every high-priority job precedes every
normal-priority job), the low-priority jobs form a contiguous suffix, and
the front job always has maximal priority tier (minimal rank) among the
queued jobs. -/
theorem C2_queue_priority_invariant (q : List Job) (h : QueueReach q) :
    q.Pairwise tierOrd ∧
    (∃ a b, q = a ++ b ∧ (∀ x ∈ a, x.priority ≠ Priority.low) ∧
      (∀ x ∈ b, x.priority = Priority.low)) ∧
    (∀ j, q.head? = some j → ∀ x ∈ q, rank j.priority ≤ rank x.priority) := by
  have hpair := queueReach_pairwise q h
  refine ⟨hpair, ?_, ?_⟩
  · refine ⟨q.takeWhile (fun x => !isLowJob x), q.dropWhile (fun x => !isLowJob x),
      (List.takeWhile_append_dropWhile _ _).symm, ?_, dropWhile_low_all q hpair⟩
    intro x hx
    have hxf : isLowJob x = false := by
      have hxlow := List.mem_takeWhile_imp hx
      simpa using hxlow
    exact (isLowJob_false_iff x).mp hxf
  · intro j hj x hx
    cases q with
    | nil => simp at hj
    | cons a t =>
      simp only [List.head?_cons, Option.some_inj] at hj
      subst hj
      rcases List.mem_cons.mp hx with hx1 | hx2
      · subst hx1; exact le_refl _
      · exact (List.pairwise_cons.mp hpair).1 x hx2

/-- Witness for C2: the queue obtained by enqueueing a low job then a
normal job from the empty queue satisfies the priority invariant. -/
theorem C2_queue_priority_invariant_witness :
    (queueInsert (queueInsert [] jobLow) jobNormal).Pairwise tierOrd := by
  exact (C2_queue_priority_invariant _
    (QueueReach.enq _ jobNormal (QueueReach.enq _ jobLow QueueReach.init))).1

theorem pqReach_inv (s : PQState) (h : PQReach s) : pqInv s := by
  induction h with
  | init => right; exact ⟨rfl, rfl⟩
  | step s l t hs hstep ih =>
    cases hstep with
    | enqueue j =>
      rcases ih with ⟨h1, h2⟩ | ⟨h1, h2⟩
      · left; exact ⟨h1, h2⟩
      · right; exact ⟨h1, h2⟩
    | enterSkip h hg =>
      rcases ih with ⟨h1, h2⟩ | ⟨h1, h2⟩
      · left; exact ⟨h1, h2⟩
      · right; exact ⟨h1, h2⟩
    | enterRun h hq hp =>
      rcases ih with ⟨h1, h2⟩ | ⟨h1, h2⟩
      · rw [hp] at h1; cases h1
      · left; exact ⟨rfl, by simp [h2]⟩
    | takeJob j rest ha hq =>
      rcases ih with ⟨h1, h2⟩ | ⟨h1, h2⟩
      · left; exact ⟨h1, h2⟩
      · right; exact ⟨h1, h2⟩
    | finish ha hq =>
      rcases ih with ⟨h1, h2⟩ | ⟨h1, h2⟩
      · right; exact ⟨rfl, by simp [h2]⟩
      · rw [h2] at ha; cases ha

/-- C3: in every reachable state at most one processQueue invocation is
inside the drain loop; a processQueue invocation that runs while
isProcessing is true cannot enter the loop and its guarded return leaves
the queue, the flag and the loop occupancy unchanged; a drain-loop
iteration removes exactly the front job from the queue before processing
it; and no step other than an enqueue ever adds a job to the queue, so a
job is never re-enqueued after completion or failure. -/
theorem C3_single_worker :
    (∀ s, PQReach s → s.active ≤ 1) ∧
    (∀ s t, s.isProcessing = true → ¬ PQStep s PQLabel.enterRun t) ∧
    (∀ s t, PQStep s PQLabel.enterSkip t →
      t.queue = s.queue ∧ t.isProcessing = s.isProcessing ∧ t.active = s.active) ∧
    (∀ s t j, PQStep s (PQLabel.takeJob j) t → s.queue = j :: t.queue) ∧
    (∀ s l t, PQStep s l t → (∀ j, l ≠ PQLabel.enqueue j) → t.queue.Sublist s.queue) := by
  refine ⟨?_, ?_, ?_, ?_, ?_⟩
  · intro s h
    rcases pqReach_inv s h with ⟨_, h2⟩ | ⟨_, h2⟩ <;> omega
  · intro s t hproc hstep
    cases hstep with
    | enterRun h hq hp => rw [hproc] at hp; cases hp
  · intro s t hstep
    cases hstep with
    | enterSkip h hg => exact ⟨rfl, rfl, rfl⟩
  · intro s t j hstep
    cases hstep with
    | takeJob j2 rest ha hq => exact hq
  · intro s l t hstep hne
    cases hstep with
    | enqueue j => exact absurd rfl (hne j)
    | enterSkip h hg => exact List.Sublist.refl _
    | enterRun h hq hp => exact List.Sublist.refl _
    | takeJob j rest ha hq => rw [hq]; exact List.sublist_cons_self j rest
    | finish ha hq => exact List.Sublist.refl _

/-- Witness for C3: after enqueueing a normal job and letting the spawned
processQueue invocation pass its guard, exactly one invocation is active. -/
theorem C3_single_worker_witness : pqS2.active ≤ 1 := by
  refine C3_single_worker.1 pqS2 (PQReach.step pqS1 PQLabel.enterRun pqS2
    (PQReach.step pqInit (PQLabel.enqueue jobNormal) pqS1 PQReach.init ?_) ?_)
  · exact PQStep.enqueue pqInit jobNormal
  · exact PQStep.enterRun pqS1 (by decide) (by decide) rfl

/-- C6: applying any of the eight stub operation kinds (resize, filter,
brightness, contrast, saturation, blur, text, overlay) returns the input
URI unchanged in every environment; only crop, rotate and flip are
dispatched to code that can produce a different URI. -/
theorem C6_stub_operations_identity (env : Env) (uri : String) (op : ImageOperation)
    (h : isStubOperation op = true) : applyOperation env uri op = Except.ok uri := by
  cases op <;> simp_all [isStubOperation, applyOperation, resizeImage, applyFilter,
    adjustBrightness, adjustContrast, adjustSaturation, applyBlur, addText, addOverlay]

/-- Witness for C6 at the blur operation. -/
theorem C6_stub_operations_identity_witness :
    isStubOperation (ImageOperation.blur 2) = true ∧
    applyOperation defaultEnv "file://a.jpg" (ImageOperation.blur 2) =
      Except.ok "file://a.jpg" :=
  ⟨rfl, C6_stub_operations_identity defaultEnv "file://a.jpg" (ImageOperation.blur 2) rfl⟩

/-- C8: for any requested rectangle and any image of size at least 1x1, the
clamped crop rectangle lies inside the image and is never empty. -/
theorem C8_crop_clamp_bounds (imageWidth imageHeight x y width height : ℚ)
    (hw : 1 ≤ imageWidth) (hh : 1 ≤ imageHeight) :
    0 ≤ safeX imageWidth x ∧ safeX imageWidth x ≤ imageWidth - 1 ∧
    0 ≤ safeY imageHeight y ∧ safeY imageHeight y ≤ imageHeight - 1 ∧
    1 ≤ safeWidth imageWidth x width ∧
    safeWidth imageWidth x width ≤ imageWidth - safeX imageWidth x ∧
    1 ≤ safeHeight imageHeight y height ∧
    safeHeight imageHeight y height ≤ imageHeight - safeY imageHeight y := by
  have hx1 : safeX imageWidth x ≤ imageWidth - 1 :=
    max_le (by linarith) (min_le_right _ _)
  have hy1 : safeY imageHeight y ≤ imageHeight - 1 :=
    max_le (by linarith) (min_le_right _ _)
  have hwx : (1 : ℚ) ≤ imageWidth - safeX imageWidth x := by linarith
  have hhy : (1 : ℚ) ≤ imageHeight - safeY imageHeight y := by linarith
  refine ⟨le_max_left _ _, hx1, le_max_left _ _, hy1, le_max_left _ _,
    max_le hwx (min_le_right _ _), le_max_left _ _, max_le hhy (min_le_right _ _)⟩

/-- Witness for C8 at a 100x50 image with an out-of-range request. -/
theorem C8_crop_clamp_bounds_witness :
    0 ≤ safeX 100 (-5) ∧ safeX 100 (-5) ≤ 100 - 1 ∧
    0 ≤ safeY 50 9999 ∧ safeY 50 9999 ≤ 50 - 1 ∧
    1 ≤ safeWidth 100 (-5) 1000000 ∧
    safeWidth 100 (-5) 1000000 ≤ 100 - safeX 100 (-5) ∧
    1 ≤ safeHeight 50 9999 (-3) ∧
    safeHeight 50 9999 (-3) ≤ 50 - safeY 50 9999 :=
  C8_crop_clamp_bounds 100 50 (-5) 9999 1000000 (-3) (by norm_num) (by norm_num)

theorem except_bind_ok {α β : Type} (x : Except String α) (f : α → Except String β) (r : β)
    (h : (x >>= f) = Except.ok r) : ∃ a, x = Except.ok a ∧ f a = Except.ok r := by
  cases x with
  | error m => simp [Bind.bind, Except.bind] at h
  | ok a => exact ⟨a, rfl, by simpa [Bind.bind, Except.bind] using h⟩

/-- C7: whenever processImage succeeds, the returned record echoes its
inputs: originalUri equals the imageUri argument and operations equals the
operations argument; and every run either returns a result or raises an
error. -/
theorem C7_result_echoes_inputs (env : Env) (uri : String) (ops : List ImageOperation)
    (options : ProcessOptions) :
    (∀ r, processImage env uri ops options = Except.ok r →
      r.originalUri = uri ∧ r.operations = ops) ∧
    ((∃ r, processImage env uri ops options = Except.ok r) ∨
      (∃ m, processImage env uri ops options = Except.error m)) := by
  constructor
  · intro r hr
    unfold processImage at hr
    cases hpi : processImageInner env uri ops options with
    | error m => rw [hpi] at hr; cases hr
    | ok r0 =>
      rw [hpi] at hr
      injection hr with hr0
      subst hr0
      unfold processImageInner at hpi
      obtain ⟨u1, hv, hpi⟩ := except_bind_ok _ _ _ hpi
      obtain ⟨i1, hg, hpi⟩ := except_bind_ok _ _ _ hpi
      obtain ⟨pu, hrun, hpi⟩ := except_bind_ok _ _ _ hpi
      obtain ⟨fu, hout, hpi⟩ := except_bind_ok _ _ _ hpi
      obtain ⟨tu, hthumb, hpi⟩ := except_bind_ok _ _ _ hpi
      obtain ⟨fi, hinfo, hpi⟩ := except_bind_ok _ _ _ hpi
      injection hpi with hres
      subst hres
      exact ⟨rfl, rfl⟩
  · cases hpi : processImage env uri ops options with
    | ok r => exact Or.inl ⟨r, rfl⟩
    | error m => exact Or.inr ⟨m, rfl⟩

/-- Witness for C7: a concrete successful run over two stub operations. -/
theorem C7_result_echoes_inputs_witness :
    sampleResult.originalUri = "file://a.jpg" ∧ sampleResult.operations = opsTwoStubs :=
  (C7_result_echoes_inputs defaultEnv "file://a.jpg" opsTwoStubs defaultOptions).1
    sampleResult rfl

/-- C5 (amended): classifyError always lands in the seven-category subset
of the eleven-value ErrorType union, the six patterns are tested in a fixed
order with the first match deciding the category, and an input matching no
pattern is classified unknown. -/
theorem C5_classify_first_match (e : JSError) :
    (classifyError e = ErrorType.storage_full ∨ classifyError e = ErrorType.large_image ∨
     classifyError e = ErrorType.export_failed ∨
     classifyError e = ErrorType.permission_denied ∨
     classifyError e = ErrorType.network_error ∨ classifyError e = ErrorType.iap_failed ∨
     classifyError e = ErrorType.unknown) ∧
    (storagePattern e = true → classifyError e = ErrorType.storage_full) ∧
    (storagePattern e = false → largeImagePattern e = true →
      classifyError e = ErrorType.large_image) ∧
    (storagePattern e = false → largeImagePattern e = false →
      exportFailedPattern e = true → classifyError e = ErrorType.export_failed) ∧
    (storagePattern e = false → largeImagePattern e = false →
      exportFailedPattern e = false → permissionPattern e = true →
      classifyError e = ErrorType.permission_denied) ∧
    (storagePattern e = false → largeImagePattern e = false →
      exportFailedPattern e = false → permissionPattern e = false →
      networkPattern e = true → classifyError e = ErrorType.network_error) ∧
    (storagePattern e = false → largeImagePattern e = false →
      exportFailedPattern e = false → permissionPattern e = false →
      networkPattern e = false → iapPattern e = true →
      classifyError e = ErrorType.iap_failed) ∧
    (storagePattern e = false → largeImagePattern e = false →
      exportFailedPattern e = false → permissionPattern e = false →
      networkPattern e = false → iapPattern e = false →
      classifyError e = ErrorType.unknown) := by
  by_cases h1 : storagePattern e = true <;> by_cases h2 : largeImagePattern e = true <;>
    by_cases h3 : exportFailedPattern e = true <;>
    by_cases h4 : permissionPattern e = true <;> by_cases h5 : networkPattern e = true <;>
    by_cases h6 : iapPattern e = true <;>
    simp_all [classifyError]

/-- Witness for C5 at an input matching only the network pattern. -/
theorem C5_classify_first_match_witness :
    classifyError errNetwork = ErrorType.network_error :=
  (C5_classify_first_match errNetwork).2.2.2.2.2.1 (by decide) (by decide) (by decide)
    (by decide) (by decide)

/-- Counterexample for C5 as stated: errOverlap matches the large-image
pattern (through its code) yet is classified storage_full, because the
storage pattern (matched through its message) is tested first; so an input
matching one of the six patterns need not be mapped to the category of that
pattern. -/
theorem C5_counterexample :
    largeImagePattern errOverlap = true ∧
    classifyError errOverlap = ErrorType.storage_full ∧
    ErrorType.storage_full ≠ ErrorType.large_image := by
  refine ⟨by decide, by decide, by decide⟩

theorem updateFirst_length {α : Type} (pred : α → Bool) (f : α → α) (l : List α) :
    (updateFirst pred f l).length = l.length := by
  induction l with
  | nil => rfl
  | cons x xs ih => by_cases h : pred x <;> simp [updateFirst, h, ih]

theorem rpReduce_length_le (s : List RecentProject) (a : RPAction) (h : s.length ≤ 10) :
    (rpReduce s a).length ≤ 10 := by
  cases a with
  | addProject p =>
    simp only [rpReduce, addProject]
    by_cases hl : (p :: s).length > 10
    · simp only [hl, if_true]
      simp [List.length_take]
    · simp only [hl, if_false]
      simp at hl
      simpa using hl
  | updateProject id u now => simpa [rpReduce, updateProject, updateFirst_length] using h
  | removeProject id =>
    exact le_trans (by simpa [rpReduce, removeProject] using List.length_filter_le _ s) h
  | addEditToProject pid e now =>
    simpa [rpReduce, addEditToProject, updateFirst_length] using h
  | markProjectAsSaved id now =>
    simpa [rpReduce, markProjectAsSaved, updateFirst_length] using h
  | clearAllProjects => simp [rpReduce, clearAllProjects]
  | updateProjectThumbnail id t now =>
    simpa [rpReduce, updateProjectThumbnail, updateFirst_length] using h

/-- C10: every recent-projects state reachable from the empty list has at
most 10 entries; addProject truncates to the first 10 and always places the
new project at the front, and every other reducer preserves the bound. -/
theorem C10_recent_projects_bound :
    (∀ s, RPReach s → s.length ≤ 10) ∧
    (∀ (s : List RecentProject) (p : RecentProject), (addProject s p).head? = some p) := by
  constructor
  · intro s h
    induction h with
    | init => simp
    | step s a hs ih => exact rpReduce_length_le s a ih
  · intro s p
    unfold addProject
    by_cases hl : (p :: s).length > 10
    · simp only [hl, if_true]
      rw [show (10 : Nat) = 9 + 1 from rfl, List.take_succ_cons]
      rfl
    · simp only [hl, if_false]
      rfl

/-- Witness for C10: the state after adding one project to the empty list. -/
theorem C10_recent_projects_bound_witness :
    (rpReduce [] (RPAction.addProject sampleProject)).length ≤ 10 :=
  C10_recent_projects_bound.1 (rpReduce [] (RPAction.addProject sampleProject))
    (RPReach.step [] (RPAction.addProject sampleProject) RPReach.init)

theorem dropLast_append_of_getLast? {α : Type} (l : List α) (a : α)
    (h : l.getLast? = some a) : l.dropLast ++ [a] = l := by
  cases l with
  | nil => simp at h
  | cons x xs =>
    have hne : x :: xs ≠ [] := by simp
    have hg : (x :: xs).getLast hne = a := by
      have hq := List.getLast?_eq_getLast (x :: xs) hne
      rw [hq] at h
      exact Option.some_inj.mp h
    rw [← hg]
    exact List.dropLast_append_getLast hne

/-- C9 (amended): undo on an empty undo stack and redo on an empty redo
stack leave the state unchanged; and when the top undo action is an
ADD_TEXT (resp. ADD_FILTER) whose payload closes the textElements (resp.
filters) list and no other element of that list shares the payload id,
undo followed by redo restores the original state. -/
theorem C9_undo_redo_roundtrip :
    (∀ s : EditorState, s.undoStack = [] → undo s = s) ∧
    (∀ s : EditorState, s.redoStack = [] → redo s = s) ∧
    (∀ (s : EditorState) (a : ImageEditAction) (t : TextElement),
      s.undoStack.getLast? = some a → a.type = "ADD_TEXT" →
      a.data = ActionData.textElem t → s.textElements.getLast? = some t →
      (∀ el ∈ s.textElements.dropLast, el.id ≠ t.id) →
      redo (undo s) = s) ∧
    (∀ (s : EditorState) (a : ImageEditAction) (f : AppliedFilter),
      s.undoStack.getLast? = some a → a.type = "ADD_FILTER" →
      a.data = ActionData.filterElem f → s.filters.getLast? = some f →
      (∀ g ∈ s.filters.dropLast, g.id ≠ f.id) →
      redo (undo s) = s) := by
  refine ⟨?_, ?_, ?_, ?_⟩
  · intro s h; simp [undo, h]
  · intro s h; simp [redo, h]
  · intro s a t hlast htype hdata htlast huniq
    have hte : s.textElements.dropLast ++ [t] = s.textElements :=
      dropLast_append_of_getLast? _ _ htlast
    have hus : s.undoStack.dropLast ++ [a] = s.undoStack :=
      dropLast_append_of_getLast? _ _ hlast
    have hfilter : s.textElements.filter (fun el => el.id != t.id) =
        s.textElements.dropLast := by
      conv_lhs => rw [← hte]
      rw [List.filter_append]
      have hkeep : s.textElements.dropLast.filter (fun el => el.id != t.id) =
          s.textElements.dropLast :=
        List.filter_eq_self.mpr (fun el hel => by simp [huniq el hel])
      have hdrop : [t].filter (fun el => el.id != t.id) = [] := by simp
      rw [hkeep, hdrop, List.append_nil]
    simp [undo, redo, applyUndoAction, applyRedoAction, hlast, htype, hdata,
      ActionData.dataId, hfilter, List.getLast?_concat, List.dropLast_concat, hus, hte]
  · intro s a f hlast htype hdata hflast huniq
    have hfe : s.filters.dropLast ++ [f] = s.filters :=
      dropLast_append_of_getLast? _ _ hflast
    have hus : s.undoStack.dropLast ++ [a] = s.undoStack :=
      dropLast_append_of_getLast? _ _ hlast
    have hfilter : s.filters.filter (fun g => g.id != f.id) = s.filters.dropLast := by
      conv_lhs => rw [← hfe]
      rw [List.filter_append]
      have hkeep : s.filters.dropLast.filter (fun g => g.id != f.id) =
          s.filters.dropLast :=
        List.filter_eq_self.mpr (fun g hg => by simp [huniq g hg])
      have hdrop : [f].filter (fun g => g.id != f.id) = [] := by simp
      rw [hkeep, hdrop, List.append_nil]
    simp [undo, redo, applyUndoAction, applyRedoAction, hlast, htype, hdata,
      ActionData.dataId, hfilter, List.getLast?_concat, List.dropLast_concat, hus, hfe]

/-- Witness for C9: undo then redo on a state holding one text element and
its ADD_TEXT action restores the state. -/
theorem C9_undo_redo_roundtrip_witness : redo (undo singleIdState) = singleIdState :=
  C9_undo_redo_roundtrip.2.2.1 singleIdState sampleAddTextAction sampleTextElement
    (by decide) (by decide) (by decide) (by decide) (by decide)

/-- Counterexample for C9 as stated: in a state whose textElements list
contains the same element twice (same id), with the matching ADD_TEXT
action on top of the undo stack, undo removes both copies (the filter drops
every element with that id) and redo restores only one, so undo followed by
redo does not restore the original state even though the list ends with the
element carried by the action. -/
theorem C9_counterexample :
    dupIdState.undoStack.getLast? = some sampleAddTextAction ∧
    sampleAddTextAction.type = "ADD_TEXT" ∧
    sampleAddTextAction.data = ActionData.textElem sampleTextElement ∧
    dupIdState.textElements.getLast? = some sampleTextElement ∧
    redo (undo dupIdState) ≠ dupIdState := by
  refine ⟨by decide, by decide, by decide, by decide, by decide⟩

theorem opsTrace_ok (env : Env) :
    ∀ (ops : List ImageOperation) (u v : String) (i n : Nat),
      runOperations env u ops = Except.ok v →
      opsTrace env n u i ops = canonicalTrace i n ops.length := by
  intro ops
  induction ops with
  | nil => intro u v i n h; simp [opsTrace, canonicalTrace]
  | cons op rest ih =>
    intro u v i n h
    cases hop : applyOperation env u op with
    | error m =>
      simp only [runOperations, hop] at h
      exact Except.noConfusion h
    | ok u2 =>
      simp only [runOperations, hop] at h
      simp only [opsTrace, hop, List.length_cons, canonicalTrace]
      rw [ih u2 v (i + 1) n h]

theorem canonicalTrace_get :
    ∀ (m i n k : Nat), k < m →
      (canonicalTrace i n m)[2 * k]? = some (PEvent.progress (progVal (i + k) n)) ∧
      (canonicalTrace i n m)[2 * k + 1]? = some (PEvent.applyOp (i + k)) := by
  intro m
  induction m with
  | zero => intro i n k hk; omega
  | succ m ih =>
    intro i n k hk
    cases k with
    | zero => simp [canonicalTrace]
    | succ k2 =>
      have hrec := ih (i + 1) n k2 (by omega)
      have he : i + (k2 + 1) = (i + 1) + k2 := by omega
      have h2 : 2 * (k2 + 1) = (2 * k2) + 1 + 1 := by omega
      constructor
      · rw [canonicalTrace, h2, List.getElem?_cons_succ, List.getElem?_cons_succ, he]
        exact hrec.1
      · rw [canonicalTrace, h2, List.getElem?_cons_succ, List.getElem?_cons_succ, he]
        exact hrec.2

theorem progressEvents_canonical (n : Nat) :
    ∀ (m i : Nat), (progressEvents (canonicalTrace i n m)).length = m := by
  intro m
  induction m with
  | zero => intro i; simp [canonicalTrace, progressEvents]
  | succ m ih =>
    intro i
    simp [canonicalTrace, progressEvents, List.filterMap_cons]
    simpa [progressEvents] using ih (i + 1)

/-- C4 (amended): on every run in which all operations complete, the
onProgress callback is invoked exactly once per operation; the invocation
for the operation at zero-based index k reports ((k + 1) / n) * 100 (a
percentage, not a fraction) and occurs immediately before, not after, that
operation is applied. -/
theorem C4_progress_before_each_step (env : Env) (uri v : String)
    (ops : List ImageOperation) (h : runOperations env uri ops = Except.ok v) :
    (progressEvents (pipelineTrace env uri ops)).length = ops.length ∧
    (∀ k, k < ops.length →
      (pipelineTrace env uri ops)[2 * k]? = some (PEvent.progress (progVal k ops.length)) ∧
      (pipelineTrace env uri ops)[2 * k + 1]? = some (PEvent.applyOp k)) := by
  have hc : pipelineTrace env uri ops = canonicalTrace 0 ops.length ops.length :=
    opsTrace_ok env ops uri v 0 ops.length h
  constructor
  · rw [hc]; exact progressEvents_canonical ops.length ops.length 0
  · intro k hk
    rw [hc]
    have hg := canonicalTrace_get ops.length 0 ops.length k hk
    simpa using hg

/-- Witness for C4: the first callback of the two-stub run reports the
value for index 0 and immediately precedes the first operation. -/
theorem C4_progress_before_each_step_witness :
    (pipelineTrace defaultEnv "file://a.jpg" opsTwoStubs)[2 * 0]? =
      some (PEvent.progress (progVal 0 opsTwoStubs.length)) ∧
    (pipelineTrace defaultEnv "file://a.jpg" opsTwoStubs)[2 * 0 + 1]? =
      some (PEvent.applyOp 0) :=
  (C4_progress_before_each_step defaultEnv "file://a.jpg" "file://a.jpg" opsTwoStubs
    rfl).2 0 (by decide)

/-- Counterexample for C4 as stated: on the two-stub run the very first
trace event is already a progress invocation (value 50, the percentage
100 * 1 / 2, not the fraction 1 / 2), so the first invocation neither
reports i / n nor occurs after the first operation has been applied. -/
theorem C4_counterexample :
    ¬ C4Claim defaultEnv "file://a.jpg" opsTwoStubs ∧
    (pipelineTrace defaultEnv "file://a.jpg" opsTwoStubs)[0]? =
      some (PEvent.progress 50) := by
  constructor
  · intro hclaim
    obtain ⟨-, h2⟩ := hclaim
    have h0 : (progressEvents
        ((pipelineTrace defaultEnv "file://a.jpg" opsTwoStubs).take 0)).length = 0 := rfl
    have hg : (pipelineTrace defaultEnv "file://a.jpg" opsTwoStubs)[0]? =
        some (PEvent.progress (progVal 0 2)) := rfl
    have hres := h2 0 0 (progVal 0 2) h0 hg
    simpa using hres.2
  · have hv : progVal 0 2 = 50 := by norm_num [progVal]
    have hg : (pipelineTrace defaultEnv "file://a.jpg" opsTwoStubs)[0]? =
        some (PEvent.progress (progVal 0 2)) := rfl
    rw [hg, hv]

end OfflinePhotoEditor
